import Mathlib

/-!
Shallow embedding of `src/stitch_videos.py`, a sequential video-stitching
orchestration script. Pure computations (resolution parsing and adjustment,
output-filename derivation, filter-graph string construction, list slicing,
manifest construction) are translated directly into Lean functions; the
side-effecting pipeline (`stitch_videos` and its helpers) is embedded as a
function from an abstract environment (which ffmpeg invocations succeed, which
files exist) to a result together with a trace of the external subprocess
invocations it performs, in order.

Conventions of the embedding:
  - Python `int` values that the script only ever uses as non-negative list
    indices and lengths become `Nat`; user-supplied integers that may be
    negative (`--position`, `--number`) become `Int`.
  - `int(x)` applied to a non-negative Python float truncates toward zero;
    for `int(res_h * 4 / 3)` with the involved products far below 2^53 the
    float quotient is exact enough that this equals floor division
    `(res_h * 4) / 3` on naturals, which is how it is embedded.
  - Python string primitives (`str.split`, `str.lower`, `int()` parsing,
    suffix matching for the glob patterns, `list.sort()` comparison) are
    translated as structurally recursive functions on the underlying
    character lists, so that every run of the embedded program can be
    evaluated inside the logic.
  - Python list slicing `l[a:b]` with a non-negative start is embedded by
    `pySlice`, including the Python negative-end semantics.
  - A Python f-string that evaluates `position + ...` with `position = None`
    raises `TypeError`; the embedding returns `RunError.typeError` at the
    corresponding program point.
-/

/-- A single-quote character as a string, used in ffmpeg filter expressions
and in concat-manifest quoting. -/
def squote : String := String.singleton (Char.ofNat 39)

/-- Lexicographic (codepoint) comparison of character lists, the order
Python `list.sort()` uses on strings. -/
def charListLt : List Char → List Char → Bool
  | _, [] => false
  | [], _ :: _ => true
  | a :: as, b :: bs =>
    if a < b then true
    else if b < a then false
    else charListLt as bs

/-- Strict lexicographic string comparison by codepoints. -/
def strLt (a b : String) : Bool := charListLt a.data b.data

/-- Non-strict lexicographic string comparison by codepoints. -/
def strLe (a b : String) : Bool := !(charListLt b.data a.data)

/-- The fixed extension list of `find_video_files` (glob patterns
`*.mp4`, `*.avi`, ... reduced to their suffixes; no two patterns can match
the same path, so the union over patterns is a plain filter). -/
def video_extensions : List String :=
  [".mp4", ".avi", ".mov", ".mkv", ".flv", ".wmv", ".m4v", ".webm"]

/-- Whether a path matches one of the recursive glob patterns of
`find_video_files`, i.e. ends in one of the recognized extensions. -/
def has_video_ext (f : String) : Bool :=
  video_extensions.any (fun e => e.data.isSuffixOf f.data)

/-- `find_video_files`: collect all paths matching a video extension and
sort them with the Python `list.sort()` call, i.e. ascending lexicographic
(codepoint) string order. The directory tree is abstracted as the list of
file paths it contains. -/
def find_video_files (files : List String) : List String :=
  List.insertionSort (fun a b => strLe a b = true) (files.filter has_video_ext)

/-- Python `str.split(sep)` for a single-character separator, on the
character list: every occurrence of the separator ends a field, and empty
fields are kept. -/
def splitOnChar (c : Char) : List Char → List (List Char)
  | [] => [[]]
  | a :: rest =>
    if a = c then [] :: splitOnChar c rest
    else
      match splitOnChar c rest with
      | [] => [[a]]
      | h :: t => (a :: h) :: t

/-- Python `int(s)` restricted to the all-digit strings a `WIDTHxHEIGHT`
resolution component can be: `none` models the `ValueError` that makes the
script exit. -/
def parseDigits (l : List Char) : Option Nat :=
  if l ≠ [] ∧ l.all Char.isDigit then
    some (l.foldl (fun n c => n * 10 + (c.toNat - 48)) 0)
  else none

/-- Resolution-string parsing in `main`: lower-case, split on the letter x,
integer-parse the first two components. Python raises (and the script
exits) when there are fewer than two components or a component is not an
integer; that is the `none` case. -/
def parse_resolution (s : String) : Option (Nat × Nat) :=
  match splitOnChar (Char.ofNat 120) (s.data.map Char.toLower) with
  | w :: h :: _ =>
    match parseDigits w, parseDigits h with
    | some a, some b => some (a, b)
    | _, _ => none
  | _ => none

/-- Resolution adjustment in `main`: when the supplied pair is not 4:3 the
width is recomputed as `int(res_h * 4 / 3)`, embedded as natural floor
division (see the header note on floats). -/
def resolve_resolution (w h : Nat) : Nat × Nat :=
  if w * 3 ≠ h * 4 then ((h * 4) / 3, h) else (w, h)

/-- Width the specification text asks for: `round(height * 4 / 3)`.
`4h/3` is never a half-integer, so rounding it is `floor(4h/3 + 1/2)`,
i.e. `(8h + 3) / 6` on naturals. Used only to compare the spec wording
with the code behaviour. -/
def spec_round_width (h : Nat) : Nat := (8 * h + 3) / 6

/-- Output-filename derivation in `main`: when the output option still holds
the default string and a position/number filter is present, the name is
rebuilt from parts joined with underscores. The comparison is by string
value, not by whether the option was supplied. -/
def derive_output (output : String) (position number : Option Int) : String :=
  if output = "stitched_video.mp4" ∧ (position.isSome ∨ number.isSome) then
    let parts : List String := ["stitched-video"]
    let parts := match position with
      | some p => parts ++ ["position-" ++ toString p]
      | none => parts
    let parts := match number with
      | some k => parts ++ ["number-" ++ toString k]
      | none => parts
    String.intercalate "_" parts ++ ".mp4"
  else output

/-- Python `f"{idx:05d}"` for a natural number: zero-pad to width 5. -/
def pad5 (n : Nat) : String :=
  let s := toString n
  String.mk (List.replicate (5 - s.length) (Char.ofNat 48)) ++ s

/-- Scratch-file name of the normalized clip with 1-based index `idx`. -/
def dstName (idx : Nat) : String := "processed_" ++ pad5 idx ++ ".mp4"

/-- One line of the concat manifest written by `create_file_list`:
`file <path>` with the path wrapped in single quotes and every single quote inside it replaced by the shell
escape sequence quote-doublequote-quote-doublequote-quote. -/
def manifestLine (path : String) : String :=
  "file " ++ squote ++
    path.replace squote (squote ++ "\x22" ++ squote ++ "\x22" ++ squote) ++ squote

/-- `create_file_list`: the manifest contents, one line per processed clip,
in list order. -/
def create_file_list (processed : List String) : List String :=
  processed.map manifestLine

/-- The overlay number computed for the clip at 1-based loop index `idx`:
`start_index + idx` when a position/number filter was supplied, else `idx`. -/
def display_number (filtered : Bool) (start_index idx : Nat) : Nat :=
  if filtered then start_index + idx else idx

/-- The `-vf` filter graph built for one clip: scale, centered crop, pad,
and, when numbering is on, a drawtext overlay of the display number, joined
by commas. -/
def buildVf (tw th : Nat) (numbered : Bool) (display : Nat) : String :=
  let vf_parts : List String :=
    ["scale=-1:" ++ toString th,
     "crop=" ++ squote ++ "min(iw," ++ toString tw ++ ")" ++ squote ++ ":" ++
       squote ++ "min(ih," ++ toString th ++ ")" ++ squote,
     "pad=" ++ toString tw ++ ":" ++ toString th ++ ":(ow-iw)/2:(oh-ih)/2"]
  let vf_parts := if numbered then
      vf_parts ++ ["drawtext=text=" ++ toString display ++
        ":fontcolor=black:fontsize=48:box=1:boxcolor=white@1:boxborderw=20:x=20:y=20"]
    else vf_parts
  String.intercalate "," vf_parts

/-- Python list slice `l[a:b]` with a non-negative start index `a` and an
arbitrary integer end `b` (a negative `b` counts from the end; out-of-range
ends are clamped). -/
def pySlice {α : Type} (l : List α) (a : Nat) (b : Int) : List α :=
  let n := l.length
  let e : Nat := if b < 0 then ((n : Int) + b).toNat else min b.toNat n
  (l.take e).drop a

/-- `start_index` as computed by `stitch_videos`: `position - 1` when a
position was supplied (only reached after the range check, so never
negative there), otherwise 0. -/
def startIndex (position : Option Int) : Nat :=
  match position with
  | some p => (p - 1).toNat
  | none => 0

/-- The out-of-range test on a supplied position against `len(video_files)`. -/
def posOutOfRange (position : Option Int) (n : Nat) : Bool :=
  match position with
  | some p => p < 1 || p > (n : Int)
  | none => false

/-- One external subprocess invocation (or manifest write) performed by the
pipeline, recorded in order in the run trace. -/
inductive Proc where
  | ffmpegVersion : Proc
  | ffprobe (file : String) : Proc
  | ffmpegEncode (src dst vf : String) : Proc
  | writeManifest (lines : List String) : Proc
  | ffmpegConcat (manifest out : String) : Proc
deriving DecidableEq, Repr

/-- Why a run returned failure. `typeError` is the uncaught Python
`TypeError` raised by the selection-report f-string when `position` is
`None` but `number` is supplied. -/
inductive RunError where
  | ffmpegMissing : RunError
  | noVideoFiles : RunError
  | positionOutOfRange : RunError
  | typeError : RunError
  | noClipsProcessed : RunError
  | concatFailed : RunError
deriving DecidableEq, Repr

/-- Abstract run environment: whether the ffmpeg version probe succeeds, the
file paths present under the input directory, which per-clip encode
invocations succeed (by source path), and whether the final concat
invocation succeeds. -/
structure Env where
  ffmpeg_ok : Bool
  files : List String
  encode_ok : String → Bool
  concat_ok : Bool

/-- The per-clip re-encode loop of `stitch_videos`: for each selected source
(1-based loop index `idx`) record the encode invocation with its filter
graph, and keep the scratch output name when the invocation succeeds
(a failing clip is skipped). Returns the encode trace and the processed
list. -/
def encodeLoop (ok : String → Bool) (numbered : Bool) (tw th : Nat)
    (filtered : Bool) (start_index : Nat) :
    Nat → List String → List Proc × List String
  | _, [] => ([], [])
  | idx, src :: rest =>
    let dst := dstName idx
    let vf := buildVf tw th numbered (display_number filtered start_index idx)
    let r := encodeLoop ok numbered tw th filtered start_index (idx + 1) rest
    (Proc.ffmpegEncode src dst vf :: r.1, if ok src then dst :: r.2 else r.2)

/-- The pipeline from the compatibility sample onward, given the selected
sub-sequence: probe at most the first 10 clips (advisory only), re-encode
each clip, then either abort when nothing was processed, or write the
manifest and run the concat invocation. -/
def pipelineAfterSelection (env : Env) (output_file : String)
    (check_compatibility numbered : Bool) (tw th : Nat)
    (filtered : Bool) (start_index : Nat) (selected : List String) :
    Except RunError Unit × List Proc :=
  let compatTrace := if check_compatibility then
      (selected.take 10).map Proc.ffprobe
    else []
  let r := encodeLoop env.encode_ok numbered tw th filtered start_index 1 selected
  if r.2.isEmpty then
    (Except.error RunError.noClipsProcessed, compatTrace ++ r.1)
  else
    let manifest := create_file_list r.2
    let tail := [Proc.writeManifest manifest,
                 Proc.ffmpegConcat "video_list.txt" output_file]
    if env.concat_ok then
      (Except.ok (), compatTrace ++ r.1 ++ tail)
    else
      (Except.error RunError.concatFailed, compatTrace ++ r.1 ++ tail)

/-- `stitch_videos`: version probe, discovery, position validation,
position/number selection (including the selection-report f-string, whose
evaluation raises `TypeError` when `position` is absent but `number` is
supplied), then the rest of the pipeline. Returns the run result and the
ordered trace of subprocess invocations. -/
def stitch_videos (env : Env) (output_file : String)
    (check_compatibility numbered : Bool) (tw th : Nat)
    (position number : Option Int) : Except RunError Unit × List Proc :=
  if env.ffmpeg_ok = false then
    (Except.error RunError.ffmpegMissing, [Proc.ffmpegVersion])
  else
    let video_files := find_video_files env.files
    if video_files.isEmpty then
      (Except.error RunError.noVideoFiles, [Proc.ffmpegVersion])
    else
      let n := video_files.length
      if posOutOfRange position n then
        (Except.error RunError.positionOutOfRange, [Proc.ffmpegVersion])
      else
        let start_index := startIndex position
        if position.isSome || number.isSome then
          let selected := match number with
            | none => video_files.drop start_index
            | some k => pySlice video_files start_index
                (min ((start_index : Int) + k) (n : Int))
          match position with
          | none => (Except.error RunError.typeError, [Proc.ffmpegVersion])
          | some _ =>
            let r := pipelineAfterSelection env output_file
              check_compatibility numbered tw th true start_index selected
            (r.1, Proc.ffmpegVersion :: r.2)
        else
          let r := pipelineAfterSelection env output_file
            check_compatibility numbered tw th false 0 video_files
          (r.1, Proc.ffmpegVersion :: r.2)

deriving instance DecidableEq for Except

/-! ## Concrete environments used by counterexamples and witnesses -/

/-- An environment with five discoverable video files where every external
invocation succeeds. -/
def envFive : Env :=
  { ffmpeg_ok := true
    files := ["v1.mp4", "v2.mp4", "v3.mp4", "v4.mp4", "v5.mp4"]
    encode_ok := fun _ => true
    concat_ok := true }

/-- An environment whose input directory holds only files with non-matching
extensions. -/
def envNoVideos : Env :=
  { ffmpeg_ok := true
    files := ["notes.txt", "readme.doc"]
    encode_ok := fun _ => true
    concat_ok := true }

/-- An environment in which the encode invocation fails exactly on
`b.mp4`. -/
def envSkipB : Env :=
  { ffmpeg_ok := true
    files := []
    encode_ok := fun s => s ≠ "b.mp4"
    concat_ok := true }

/-- An environment in which every encode invocation fails. -/
def envAllFail : Env :=
  { ffmpeg_ok := true
    files := []
    encode_ok := fun _ => false
    concat_ok := true }

/-! ## The embedded comparison agrees with the lexicographic string order -/

/-- `charListLt` is the lexicographic order on character lists. -/
theorem charListLt_iff : ∀ x y : List Char, charListLt x y = true ↔ x < y := by
  intro x
  induction x with
  | nil =>
    intro y
    cases y with
    | nil =>
      refine iff_of_false (by simp [charListLt]) ?_
      intro h
      exact List.Lex.not_nil_right _ _ h
    | cons b bs =>
      exact iff_of_true (by simp [charListLt]) (List.nil_lt_cons b bs)
  | cons a as ih =>
    intro y
    cases y with
    | nil =>
      refine iff_of_false (by simp [charListLt]) ?_
      intro h
      exact List.Lex.not_nil_right _ _ h
    | cons b bs =>
      rcases lt_trichotomy a b with hab | hab | hab
      · refine iff_of_true ?_ (List.Lex.rel hab)
        simp [charListLt, hab]
      · subst hab
        have hirr : ¬a < a := lt_irrefl a
        constructor
        · intro h
          have h1 : charListLt as bs = true := by
            simpa [charListLt, hirr] using h
          exact List.Lex.cons ((ih bs).mp h1)
        · intro h
          have h1 : as < bs := by
            cases h with
            | cons h1 => exact h1
            | rel h1 => exact absurd h1 hirr
          simpa [charListLt, hirr] using (ih bs).mpr h1
      · have h1 : ¬a < b := not_lt_of_gt hab
        refine iff_of_false (by simp [charListLt, h1, hab]) ?_
        intro h
        cases h with
        | cons h2 => exact lt_irrefl a hab
        | rel h2 => exact h1 h2

/-- `strLt` is `<` on strings (lexicographic by codepoints). -/
theorem strLt_iff (a b : String) : strLt a b = true ↔ a < b := by
  rw [String.lt_iff_toList_lt]
  exact charListLt_iff a.data b.data

/-- `strLe` is `≤` on strings (lexicographic by codepoints). -/
theorem strLe_iff (a b : String) : strLe a b = true ↔ a ≤ b := by
  have h : (a ≤ b) = ¬b < a := rfl
  rw [h, ← strLt_iff b a]
  simp [strLe, strLt]


/-! ## Helper lemmas about the encode loop -/

/-- The encode trace records one invocation per selected clip: entry `j`
(0-based) is the encode of source `j`, with scratch name and display number
derived from the 1-based loop index `i + j`. -/
theorem encodeLoop_trace_getElem (ok : String → Bool) (nb : Bool) (tw th : Nat)
    (fl : Bool) (s : Nat) :
    ∀ (l : List String) (i j : Nat),
      ((encodeLoop ok nb tw th fl s i l).1)[j]? =
        (l[j]?).map (fun src => Proc.ffmpegEncode src (dstName (i + j))
          (buildVf tw th nb (display_number fl s (i + j)))) := by
  intro l
  induction l with
  | nil => intro i j; simp [encodeLoop]
  | cons a rest ih =>
    intro i j
    cases j with
    | zero => simp [encodeLoop]
    | succ j =>
      have e1 : i + (j + 1) = (i + 1) + j := by omega
      simp only [encodeLoop, List.getElem?_cons_succ, e1]
      exact ih (i + 1) j

/-- Exactly the clips whose encode invocation succeeds make it into the
processed list. -/
theorem encodeLoop_processed_length (ok : String → Bool) (nb : Bool)
    (tw th : Nat) (fl : Bool) (s : Nat) :
    ∀ (l : List String) (i : Nat),
      ((encodeLoop ok nb tw th fl s i l).2).length = (l.filter ok).length := by
  intro l
  induction l with
  | nil => intro i; simp [encodeLoop]
  | cons a rest ih =>
    intro i
    by_cases hok : ok a
    · simp [encodeLoop, hok, List.filter_cons, ih (i + 1)]
    · simp [encodeLoop, hok, List.filter_cons, ih (i + 1)]

/-- The processed list of a run with failures is a subsequence (hence in
the original relative order) of the processed list of an all-success run. -/
theorem encodeLoop_processed_sublist (ok : String → Bool) (nb : Bool)
    (tw th : Nat) (fl : Bool) (s : Nat) :
    ∀ (l : List String) (i : Nat),
      ((encodeLoop ok nb tw th fl s i l).2).Sublist
        ((encodeLoop (fun _ => true) nb tw th fl s i l).2) := by
  intro l
  induction l with
  | nil => intro i; simp [encodeLoop]
  | cons a rest ih =>
    intro i
    by_cases hok : ok a
    · simpa [encodeLoop, hok] using List.Sublist.cons₂ (dstName i) (ih (i + 1))
    · simpa [encodeLoop, hok] using List.Sublist.cons (dstName i) (ih (i + 1))

/-- When every encode invocation fails, nothing is processed. -/
theorem encodeLoop_processed_nil (ok : String → Bool) (nb : Bool)
    (tw th : Nat) (fl : Bool) (s : Nat) :
    ∀ (l : List String) (i : Nat), (∀ x ∈ l, ok x = false) →
      (encodeLoop ok nb tw th fl s i l).2 = [] := by
  intro l
  induction l with
  | nil => intro i _; simp [encodeLoop]
  | cons a rest ih =>
    intro i h
    have ha := h a (by simp)
    simp [encodeLoop, ha, ih (i + 1) (fun x hx => h x (by simp [hx]))]

/-- Every entry of the encode trace is an encode invocation. -/
theorem encodeLoop_trace_mem (ok : String → Bool) (nb : Bool) (tw th : Nat)
    (fl : Bool) (s : Nat) :
    ∀ (l : List String) (i : Nat) (e : Proc),
      e ∈ (encodeLoop ok nb tw th fl s i l).1 →
      ∃ src dst vf, e = Proc.ffmpegEncode src dst vf := by
  intro l
  induction l with
  | nil => intro i e he; simp [encodeLoop] at he
  | cons a rest ih =>
    intro i e he
    simp only [encodeLoop, List.mem_cons] at he
    rcases he with he | he
    · exact ⟨_, _, _, he⟩
    · exact ih (i + 1) e he

/-! ## Claim C1 -/

/-- C1 counterexample: for the resolution string `1x2` (parsed pair
`(1, 2)`, not 4:3) the script resolves the width to `int(2*4/3) = 2`,
while `round(2*4/3) = 3`, and the resulting pair `(2, 2)` violates
`width * 3 == height * 4`. Both parts of the claim fail at this input. -/
theorem resolution_round_claim_cex :
    parse_resolution "1x2" = some (1, 2) ∧ 1 * 3 ≠ 2 * 4 ∧
    (resolve_resolution 1 2).1 = 2 ∧ spec_round_width 2 = 3 ∧
    (resolve_resolution 1 2).1 ≠ spec_round_width 2 ∧
    ¬((resolve_resolution 1 2).1 * 3 = 2 * 4) := by
  refine ⟨by decide, by decide, by decide, by decide, by decide, by decide⟩

/-- C1 (amended): for every resolution string whose parsed pair `(w, h)` is
not 4:3, the resolved width is the truncation `int(h * 4 / 3)`, i.e.
`(h * 4) / 3` rounded toward zero, and the resulting pair satisfies
`width * 3 == height * 4` exactly iff the height is divisible by 3. -/
theorem resolution_width_truncation (s : String) (w h : Nat)
    (_hs : parse_resolution s = some (w, h)) (hne : w * 3 ≠ h * 4) :
    resolve_resolution w h = ((h * 4) / 3, h) ∧
    ((resolve_resolution w h).1 * 3 = h * 4 ↔ h % 3 = 0) := by
  have h1 : resolve_resolution w h = ((h * 4) / 3, h) := by
    simp [resolve_resolution, hne]
  refine ⟨h1, ?_⟩
  rw [h1]
  constructor
  · intro he; omega
  · intro he; omega

/-- Witness for the amended C1 at the concrete resolution string
`100x100`. -/
theorem resolution_width_truncation_witness :
    (parse_resolution "100x100" = some (100, 100) ∧ 100 * 3 ≠ 100 * 4) ∧
    (resolve_resolution 100 100 = ((100 * 4) / 3, 100) ∧
      ((resolve_resolution 100 100).1 * 3 = 100 * 4 ↔ 100 % 3 = 0)) :=
  ⟨⟨by decide, by decide⟩,
    resolution_width_truncation "100x100" 100 100 (by decide) (by decide)⟩

/-! ## Claim C8 -/

/-- C8: discovery returns the matching paths sorted ascending in the
lexicographic (codepoint) string order — concretely not numeric-aware,
since `d/file10.mp4` sorts before `d/file2.mp4` — and returns the empty
sequence rather than failing when no files match. -/
theorem discovery_sorted_lexicographic :
    (∀ files : List String,
        List.Sorted (fun a b : String => a ≤ b) (find_video_files files) ∧
        (find_video_files files).Perm (files.filter has_video_ext)) ∧
    find_video_files ["d/file2.mp4", "d/file10.mp4"] =
      ["d/file10.mp4", "d/file2.mp4"] ∧
    find_video_files ["notes.txt", "readme.doc"] = [] := by
  have htot : IsTotal String (fun a b => strLe a b = true) := by
    constructor
    intro a b
    rw [strLe_iff, strLe_iff]
    exact le_total a b
  have htrans : IsTrans String (fun a b => strLe a b = true) := by
    constructor
    intro a b c h1 h2
    rw [strLe_iff] at h1 h2 ⊢
    exact le_trans h1 h2
  refine ⟨fun files => ⟨?_, ?_⟩, by decide, by decide⟩
  · have hs := @List.sorted_insertionSort String
      (fun a b : String => strLe a b = true) _ htot htrans
      (files.filter has_video_ext)
    exact hs.imp (fun hab => (strLe_iff _ _).mp hab)
  · exact List.perm_insertionSort _ _

/-! ## Claim C9 -/

/-- C9: whenever the output option value equals the default string
`stitched_video.mp4` (whether defaulted or explicitly supplied — the test
is by string value) and a position or number was given, the output name is
rewritten to `stitched-video` followed by `_position-P` when a position `P`
was given, then `_number-N` when a count `N` was given, then `.mp4`. -/
theorem default_output_rewrite (p n : Option Int) (h : p.isSome ∨ n.isSome) :
    derive_output "stitched_video.mp4" p n =
      "stitched-video" ++
        (match p with | some v => "_position-" ++ toString v | none => "") ++
        (match n with | some v => "_number-" ++ toString v | none => "") ++
        ".mp4" := by
  have g1 : ("_position-" : String) = "_" ++ "position-" := by decide
  have g2 : ("_number-" : String) = "_" ++ "number-" := by decide
  cases p with
  | none =>
    cases n with
    | none => simp at h
    | some v =>
      show ("stitched-video" ++ "_" ++ ("number-" ++ toString v)) ++ ".mp4" = _
      rw [g2]
      simp only [String.append_empty, String.empty_append, String.append_assoc]
  | some u =>
    cases n with
    | none =>
      show ("stitched-video" ++ "_" ++ ("position-" ++ toString u)) ++ ".mp4" = _
      rw [g1]
      simp only [String.append_empty, String.empty_append, String.append_assoc]
    | some v =>
      show ("stitched-video" ++ "_" ++ ("position-" ++ toString u) ++ "_" ++
          ("number-" ++ toString v)) ++ ".mp4" = _
      rw [g1, g2]
      simp only [String.append_empty, String.empty_append, String.append_assoc]

/-- Witness for C9 at position 2, number 2 (the example used in the spec). -/
theorem default_output_rewrite_witness :
    ((some 2 : Option Int).isSome ∨ (some 2 : Option Int).isSome) ∧
    derive_output "stitched_video.mp4" (some 2) (some 2) =
      "stitched-video" ++ ("_position-" ++ toString (2 : Int)) ++
        ("_number-" ++ toString (2 : Int)) ++ ".mp4" :=
  ⟨Or.inl rfl, default_output_rewrite (some 2) (some 2) (Or.inl rfl)⟩

/-! ## Claim C2 -/

/-- C2 (code bug): with five discovered files, `number = 2` and no
`position`, the selection slice itself would be the first
`min(count, N) = 2` files, but the selection-report f-string then evaluates
`position + len(video_files) - 1` with `position = None` and the run dies
with an uncaught `TypeError` instead of proceeding. -/
theorem number_without_position_type_error :
    pySlice (find_video_files envFive.files) (startIndex none)
        (min (((startIndex none : Nat) : Int) + 2)
          ((find_video_files envFive.files).length : Int)) =
      ["v1.mp4", "v2.mp4"] ∧
    stitch_videos envFive "stitched_video.mp4" true false 1280 960
        none (some 2) =
      (Except.error RunError.typeError, [Proc.ffmpegVersion]) := by
  refine ⟨by decide, by decide⟩

/-! ## Claim C3 -/

/-- C3 counterexample: on a directory with only non-matching extensions the
run does fail reporting no video files, but its trace is not empty — the
`ffmpeg -version` availability probe is a subprocess invocation performed
before discovery, so "no subprocess invocations" is false. -/
theorem no_files_probe_subprocess_cex :
    stitch_videos envNoVideos "stitched_video.mp4" true false 1280 960
        none none =
      (Except.error RunError.noVideoFiles, [Proc.ffmpegVersion]) ∧
    (stitch_videos envNoVideos "stitched_video.mp4" true false 1280 960
        none none).2 ≠ [] := by
  refine ⟨by decide, by decide⟩

/-- C3 (amended): when ffmpeg is available and no file under the input
directory matches a video extension, discovery returns the empty sequence
and the run fails with the no-video-files error after performing exactly
one subprocess invocation: the ffmpeg version probe (in particular no
per-file probe, no encode and no concatenation). -/
theorem no_matching_files_run_fails (env : Env) (out : String)
    (cc nb : Bool) (tw th : Nat) (pos num : Option Int)
    (hff : env.ffmpeg_ok = true)
    (hnm : ∀ f ∈ env.files, has_video_ext f = false) :
    find_video_files env.files = [] ∧
    stitch_videos env out cc nb tw th pos num =
      (Except.error RunError.noVideoFiles, [Proc.ffmpegVersion]) := by
  have h0 : env.files.filter has_video_ext = [] := by
    rw [List.filter_eq_nil_iff]
    intro a ha
    simp [hnm a ha]
  have h1 : find_video_files env.files = [] := by
    simp [find_video_files, h0, List.insertionSort]
  refine ⟨h1, ?_⟩
  simp [stitch_videos, hff, h1]

/-- Witness for the amended C3 in the concrete no-videos environment. -/
theorem no_matching_files_run_fails_witness :
    (envNoVideos.ffmpeg_ok = true ∧
      ∀ f ∈ envNoVideos.files, has_video_ext f = false) ∧
    (find_video_files envNoVideos.files = [] ∧
      stitch_videos envNoVideos "stitched_video.mp4" true false 1280 960
          none none =
        (Except.error RunError.noVideoFiles, [Proc.ffmpegVersion])) :=
  ⟨⟨rfl, by decide⟩,
    no_matching_files_run_fails envNoVideos "stitched_video.mp4" true false
      1280 960 none none rfl (by decide)⟩

/-! ## Claim C4 -/

/-- C4 counterexample: with an empty discovered sequence (length `N = 0`)
and `position = 3` (outside `[1, 0]`), the run fails with the
no-video-files error before the position check, not with the out-of-range
condition the claim requires. -/
theorem position_range_empty_discovery_cex :
    find_video_files envNoVideos.files = [] ∧
    ¬(1 ≤ (3 : Int) ∧ (3 : Int) ≤
        ((find_video_files envNoVideos.files).length : Int)) ∧
    stitch_videos envNoVideos "stitched_video.mp4" true false 1280 960
        (some 3) none =
      (Except.error RunError.noVideoFiles, [Proc.ffmpegVersion]) ∧
    RunError.noVideoFiles ≠ RunError.positionOutOfRange := by
  refine ⟨by decide, by decide, by decide, by decide⟩

/-- C4 (amended): when ffmpeg is available, the discovered sequence is
nonempty and the supplied position lies outside `[1, N]`, the run fails
with the out-of-range error and its trace holds only the version probe —
no sampling, normalization or concatenation subprocess runs. -/
theorem position_out_of_range_fails (env : Env) (out : String)
    (cc nb : Bool) (tw th : Nat) (p : Int) (num : Option Int)
    (hff : env.ffmpeg_ok = true)
    (hne : find_video_files env.files ≠ [])
    (hout : p < 1 ∨ ((find_video_files env.files).length : Int) < p) :
    stitch_videos env out cc nb tw th (some p) num =
      (Except.error RunError.positionOutOfRange, [Proc.ffmpegVersion]) := by
  have hie : (find_video_files env.files).isEmpty = false := by
    simpa [List.isEmpty_eq_false] using hne
  have hpos : posOutOfRange (some p) (find_video_files env.files).length
      = true := by
    simp only [posOutOfRange, Bool.or_eq_true, decide_eq_true_eq]
    omega
  simp [stitch_videos, hff, hie, hpos]

/-- Witness for the amended C4: position 7 against five discovered files. -/
theorem position_out_of_range_fails_witness :
    (envFive.ffmpeg_ok = true ∧ find_video_files envFive.files ≠ [] ∧
      ((7 : Int) < 1 ∨ ((find_video_files envFive.files).length : Int) < 7)) ∧
    stitch_videos envFive "stitched_video.mp4" true false 1280 960
        (some 7) none =
      (Except.error RunError.positionOutOfRange, [Proc.ffmpegVersion]) :=
  ⟨⟨rfl, by decide, by decide⟩,
    position_out_of_range_fails envFive "stitched_video.mp4" true false
      1280 960 7 none rfl (by decide) (by decide)⟩

/-! ## Claim C5 -/

/-- C5: for a selected sequence in which strictly fewer than all clips fail
normalization, the run continues: the manifest written to the trace lists
exactly `N - K` clips, as a subsequence (original relative order) of the
all-success manifest, and the concatenation invocation appears in the
trace. -/
theorem failed_clips_skipped_concat_proceeds (env : Env) (out : String)
    (cc nb : Bool) (tw th : Nat) (fl : Bool) (s : Nat) (sel : List String)
    (h : (sel.filter (fun f => !env.encode_ok f)).length < sel.length) :
    Proc.writeManifest
        (create_file_list (encodeLoop env.encode_ok nb tw th fl s 1 sel).2) ∈
      (pipelineAfterSelection env out cc nb tw th fl s sel).2 ∧
    Proc.ffmpegConcat "video_list.txt" out ∈
      (pipelineAfterSelection env out cc nb tw th fl s sel).2 ∧
    (create_file_list (encodeLoop env.encode_ok nb tw th fl s 1 sel).2).length =
      sel.length - (sel.filter (fun f => !env.encode_ok f)).length ∧
    (create_file_list (encodeLoop env.encode_ok nb tw th fl s 1 sel).2).Sublist
      (create_file_list (encodeLoop (fun _ => true) nb tw th fl s 1 sel).2) := by
  have hlen : (encodeLoop env.encode_ok nb tw th fl s 1 sel).2.length =
      (sel.filter env.encode_ok).length :=
    encodeLoop_processed_length _ _ _ _ _ _ sel 1
  have htot := List.length_eq_length_filter_add (l := sel) env.encode_ok
  have hpos : 0 < (encodeLoop env.encode_ok nb tw th fl s 1 sel).2.length := by
    simp only [hlen]
    omega
  have hie : (encodeLoop env.encode_ok nb tw th fl s 1 sel).2.isEmpty = false := by
    rw [List.isEmpty_eq_false]
    intro hnil
    rw [hnil] at hpos
    simp at hpos
  refine ⟨?_, ?_, ?_, ?_⟩
  · cases hc : env.concat_ok <;>
      simp [pipelineAfterSelection, hie, hc, List.mem_append]
  · cases hc : env.concat_ok <;>
      simp [pipelineAfterSelection, hie, hc, List.mem_append]
  · simp only [create_file_list, List.length_map, hlen]
    omega
  · exact List.Sublist.map manifestLine
      (encodeLoop_processed_sublist env.encode_ok nb tw th fl s sel 1)

/-- Witness for C5: of two selected clips exactly one (`b.mp4`) fails. -/
theorem failed_clips_skipped_concat_proceeds_witness :
    ((["a.mp4", "b.mp4"].filter
        (fun f => !envSkipB.encode_ok f)).length < ["a.mp4", "b.mp4"].length) ∧
    (Proc.writeManifest
        (create_file_list
          (encodeLoop envSkipB.encode_ok false 1280 960 false 0 1
            ["a.mp4", "b.mp4"]).2) ∈
      (pipelineAfterSelection envSkipB "out.mp4" true false 1280 960 false 0
        ["a.mp4", "b.mp4"]).2 ∧
    Proc.ffmpegConcat "video_list.txt" "out.mp4" ∈
      (pipelineAfterSelection envSkipB "out.mp4" true false 1280 960 false 0
        ["a.mp4", "b.mp4"]).2 ∧
    (create_file_list
        (encodeLoop envSkipB.encode_ok false 1280 960 false 0 1
          ["a.mp4", "b.mp4"]).2).length =
      ["a.mp4", "b.mp4"].length -
        (["a.mp4", "b.mp4"].filter (fun f => !envSkipB.encode_ok f)).length ∧
    (create_file_list
        (encodeLoop envSkipB.encode_ok false 1280 960 false 0 1
          ["a.mp4", "b.mp4"]).2).Sublist
      (create_file_list
        (encodeLoop (fun _ => true) false 1280 960 false 0 1
          ["a.mp4", "b.mp4"]).2)) :=
  ⟨by decide,
    failed_clips_skipped_concat_proceeds envSkipB "out.mp4" true false 1280 960
      false 0 ["a.mp4", "b.mp4"] (by decide)⟩

/-! ## Claim C6 -/

/-- Every entry of the compatibility-sample trace is an ffprobe
invocation. -/
theorem mem_ffprobe_trace (cc : Bool) (sel : List String) (e : Proc)
    (he : e ∈ (if cc then (sel.take 10).map Proc.ffprobe
      else ([] : List Proc))) :
    ∃ f, e = Proc.ffprobe f := by
  cases cc with
  | false => simp at he
  | true =>
    simp only [if_pos] at he
    rcases List.mem_map.mp he with ⟨x, _, hx⟩
    exact ⟨x, hx.symm⟩

/-- C6: when every selected clip fails normalization the run fails with the
no-clips-processed error before concatenation: its trace contains no
manifest write and no concatenation invocation (so no output file is ever
produced). -/
theorem all_failures_abort_before_concat (env : Env) (out : String)
    (cc nb : Bool) (tw th : Nat) (fl : Bool) (s : Nat) (sel : List String)
    (h : ∀ f ∈ sel, env.encode_ok f = false) :
    (pipelineAfterSelection env out cc nb tw th fl s sel).1 =
      Except.error RunError.noClipsProcessed ∧
    (∀ lines, Proc.writeManifest lines ∉
      (pipelineAfterSelection env out cc nb tw th fl s sel).2) ∧
    (∀ m o, Proc.ffmpegConcat m o ∉
      (pipelineAfterSelection env out cc nb tw th fl s sel).2) := by
  have hnil : (encodeLoop env.encode_ok nb tw th fl s 1 sel).2 = [] :=
    encodeLoop_processed_nil _ _ _ _ _ _ sel 1 h
  have hie : (encodeLoop env.encode_ok nb tw th fl s 1 sel).2.isEmpty = true := by
    rw [hnil]
    rfl
  refine ⟨by simp [pipelineAfterSelection, hie], ?_, ?_⟩
  · intro lines hmem
    simp only [pipelineAfterSelection, hie, if_pos, List.mem_append] at hmem
    rcases hmem with hm | hm
    · rcases mem_ffprobe_trace cc sel _ hm with ⟨f2, hf⟩
      exact absurd hf (by simp)
    · rcases encodeLoop_trace_mem env.encode_ok nb tw th fl s sel 1 _ hm with
        ⟨a1, a2, a3, heq⟩
      exact absurd heq (by simp)
  · intro m o hmem
    simp only [pipelineAfterSelection, hie, if_pos, List.mem_append] at hmem
    rcases hmem with hm | hm
    · rcases mem_ffprobe_trace cc sel _ hm with ⟨f2, hf⟩
      exact absurd hf (by simp)
    · rcases encodeLoop_trace_mem env.encode_ok nb tw th fl s sel 1 _ hm with
        ⟨a1, a2, a3, heq⟩
      exact absurd heq (by simp)

/-- Witness for C6: both selected clips fail. -/
theorem all_failures_abort_before_concat_witness :
    (∀ f ∈ ["a.mp4", "b.mp4"], envAllFail.encode_ok f = false) ∧
    ((pipelineAfterSelection envAllFail "out.mp4" true false 1280 960 false 0
        ["a.mp4", "b.mp4"]).1 = Except.error RunError.noClipsProcessed ∧
    (∀ lines, Proc.writeManifest lines ∉
      (pipelineAfterSelection envAllFail "out.mp4" true false 1280 960 false 0
        ["a.mp4", "b.mp4"]).2) ∧
    (∀ m o, Proc.ffmpegConcat m o ∉
      (pipelineAfterSelection envAllFail "out.mp4" true false 1280 960 false 0
        ["a.mp4", "b.mp4"]).2)) :=
  ⟨by decide,
    all_failures_abort_before_concat envAllFail "out.mp4" true false 1280 960
      false 0 ["a.mp4", "b.mp4"] (by decide)⟩

/-! ## Claim C7 -/

/-- C7: with numbering enabled, the encode invocation recorded for the clip
at 0-based index `j` (1-based index `j + 1`) carries a drawtext overlay of
`p + (j + 1) - 1 = p.toNat + j` when a position `p ≥ 1` was supplied, and
of the 1-based index `j + 1` itself when no position/number filter was
supplied. -/
theorem overlay_display_numbers (ok : String → Bool) (tw th : Nat)
    (sel : List String) (p : Int) (j : Nat) (hp : 1 ≤ p) :
    ((encodeLoop ok true tw th true ((p - 1).toNat) 1 sel).1)[j]? =
      (sel[j]?).map (fun src => Proc.ffmpegEncode src (dstName (j + 1))
        (buildVf tw th true (p.toNat + j))) ∧
    ((encodeLoop ok true tw th false 0 1 sel).1)[j]? =
      (sel[j]?).map (fun src => Proc.ffmpegEncode src (dstName (j + 1))
        (buildVf tw th true (j + 1))) := by
  have e2 : display_number true (p - 1).toNat (1 + j) = p.toNat + j := by
    simp only [display_number, if_true]
    omega
  have e3 : display_number false 0 (1 + j) = j + 1 := by
    simp only [display_number, Bool.false_eq_true, if_false]
    omega
  have e1 : 1 + j = j + 1 := Nat.add_comm 1 j
  constructor
  · rw [encodeLoop_trace_getElem]
    simp only [e2]
    simp only [e1]
  · rw [encodeLoop_trace_getElem]
    simp only [e3]
    simp only [e1]

/-- Witness for C7: position 2 over two selected clips; the first overlay
reads 2 (and the unfiltered variant would read 1). -/
theorem overlay_display_numbers_witness :
    (1 ≤ (2 : Int)) ∧
    (((encodeLoop (fun _ => true) true 1280 960 true (((2 : Int) - 1).toNat) 1
        ["a.mp4", "b.mp4"]).1)[0]? =
      ((["a.mp4", "b.mp4"] : List String)[0]?).map
        (fun src => Proc.ffmpegEncode src (dstName (0 + 1))
          (buildVf 1280 960 true ((2 : Int).toNat + 0))) ∧
    ((encodeLoop (fun _ => true) true 1280 960 false 0 1
        ["a.mp4", "b.mp4"]).1)[0]? =
      ((["a.mp4", "b.mp4"] : List String)[0]?).map
        (fun src => Proc.ffmpegEncode src (dstName (0 + 1))
          (buildVf 1280 960 true (0 + 1)))) :=
  ⟨by decide,
    overlay_display_numbers (fun _ => true) 1280 960 ["a.mp4", "b.mp4"] 2 0
      (by decide)⟩

/-! ## Claim C10 -/

/-- The pipeline on an empty selection: nothing is probed or encoded and
the run aborts with the no-clips error. -/
theorem pipelineAfterSelection_nil (env : Env) (out : String)
    (cc nb : Bool) (tw th : Nat) (fl : Bool) (s : Nat) :
    pipelineAfterSelection env out cc nb tw th fl s [] =
      (Except.error RunError.noClipsProcessed, []) := by
  cases cc <;> rfl

/-- A Python slice whose end index equals its non-negative start index is
empty. -/
theorem pySlice_self {α : Type} (l : List α) (a : Nat) :
    pySlice l a ((a : Nat) : Int) = [] := by
  simp only [pySlice]
  rw [if_neg (by omega)]
  apply List.drop_eq_nil_of_le
  rw [List.length_take]
  omega

/-- C10: with a valid position and `number = 0` the selected sub-sequence is
empty, so the run performs no sampling, normalization or concatenation
subprocess (the trace holds only the version probe), writes no manifest,
and fails reporting that no clips could be processed. -/
theorem count_zero_no_processing (env : Env) (out : String)
    (cc nb : Bool) (tw th : Nat) (p : Int)
    (hff : env.ffmpeg_ok = true)
    (hp1 : 1 ≤ p)
    (hpN : p ≤ ((find_video_files env.files).length : Int)) :
    stitch_videos env out cc nb tw th (some p) (some 0) =
      (Except.error RunError.noClipsProcessed, [Proc.ffmpegVersion]) := by
  have hN1 : 1 ≤ (find_video_files env.files).length := by omega
  have hie : (find_video_files env.files).isEmpty = false := by
    rw [List.isEmpty_eq_false]
    intro hn
    rw [hn] at hN1
    simp at hN1
  have hpos : posOutOfRange (some p) (find_video_files env.files).length
      = false := by
    simp only [posOutOfRange, Bool.or_eq_false_iff, decide_eq_false_iff_not,
      not_lt]
    omega
  have hb : min ((startIndex (some p) : Nat) : Int)
      (((find_video_files env.files).length : Nat) : Int)
      = ((startIndex (some p) : Nat) : Int) := by
    simp only [startIndex]
    omega
  have hsel : pySlice (find_video_files env.files) (startIndex (some p))
      (min ((startIndex (some p) : Nat) : Int)
        (((find_video_files env.files).length : Nat) : Int)) = [] := by
    rw [hb]
    exact pySlice_self _ _
  simp [stitch_videos, hff, hie, hpos, hsel, pipelineAfterSelection_nil]

/-- Witness for C10: position 2, count 0 over five discovered files. -/
theorem count_zero_no_processing_witness :
    (envFive.ffmpeg_ok = true ∧ 1 ≤ (2 : Int) ∧
      (2 : Int) ≤ ((find_video_files envFive.files).length : Int)) ∧
    stitch_videos envFive "out.mp4" true false 1280 960 (some 2) (some 0) =
      (Except.error RunError.noClipsProcessed, [Proc.ffmpegVersion]) :=
  ⟨⟨rfl, by decide, by decide⟩,
    count_zero_no_processing envFive "out.mp4" true false 1280 960 2 rfl
      (by decide) (by decide)⟩
